import Mathlib

/-!
Verification of the growth-and-decay library (src/lib.rs).

The library's `f64` arithmetic is shallowly embedded over the real numbers `ℝ`:
`f64::ln` becomes `Real.log`, `f64::exp` becomes `Real.exp`, and `f64::powf`
becomes real exponentiation `Real.rpow`.  Rust's `Option<f64>` parameters
become `Option ℝ`, and the constructors' `assert!`-panic on missing inputs is
modelled by returning `none` (the `InvalidInput` condition); on success the
constructor returns `some` of the fully populated record.  The in-place
mutators `modify_final_value` and `modify_final_time` are modelled as
functions from the receiver record to the updated record.
-/

/-- The `ExponentialChange` struct of src/lib.rs: principal, final value,
rate and time of an exponential growth or decay process. -/
structure ExponentialChange where
  principal : ℝ
  final_value : ℝ
  rate : ℝ
  time : ℝ

/-- The `GrowthOrDecayRatios` struct of src/lib.rs: final ratio `rt`,
initial ratio `r0`, derived decay constant, elapsed time and the
characteristic decay time `decay_years`. -/
structure GrowthOrDecayRatios where
  rt : ℝ
  r0 : ℝ
  decay_constant : ℝ
  time : ℝ
  decay_years : ℝ

/-- `ExponentialChange::new` of src/lib.rs.  The `assert!` that at least one
of `final_value`/`rate` is supplied becomes the `none` result.  When `rate`
is absent it is derived from the supplied `final_value`: the decay branch
(`final_value < principal`) computes `(-(ln (fv/principal)) / time).neg()`,
the other branch `(fv/principal)^(1/time) - 1`.  When `final_value` is
absent it is derived as `principal * (1 + rate)^time`.  When both are
supplied, both are stored as given. -/
noncomputable def ExponentialChange.new (principal : ℝ) (final_value : Option ℝ)
    (rate : Option ℝ) (time : ℝ) : Option ExponentialChange :=
  match final_value, rate with
  | none, none => none
  | some fv, none =>
      some { principal := principal
             final_value := fv
             rate := if fv < principal
               then -(-Real.log (fv / principal) / time)
               else (fv / principal) ^ (1 / time) - 1
             time := time }
  | none, some r =>
      some { principal := principal
             final_value := principal * (1 + r) ^ time
             rate := r
             time := time }
  | some fv, some r =>
      some { principal := principal
             final_value := fv
             rate := r
             time := time }

/-- `ExponentialChange::modify_final_value` of src/lib.rs: overwrite
`final_value`, recompute `time = |ln (final_value / principal) / rate|`
("Time cannot be negative"). -/
noncomputable def ExponentialChange.modify_final_value (e : ExponentialChange)
    (new_final_value : ℝ) : ExponentialChange :=
  { e with
    final_value := new_final_value
    time := |Real.log (new_final_value / e.principal) / e.rate| }

/-- `ExponentialChange::modify_final_time` of src/lib.rs: overwrite `time`,
recompute `final_value` with the continuous formula `principal * exp(rate*time)`
when `rate < 0`, and with `principal * (1+rate)^time` otherwise. -/
noncomputable def ExponentialChange.modify_final_time (e : ExponentialChange)
    (new_time : ℝ) : ExponentialChange :=
  { e with
    time := new_time
    final_value := if e.rate < 0
      then e.principal * Real.exp (e.rate * new_time)
      else e.principal * (1 + e.rate) ^ new_time }

/-- `GrowthOrDecayRatios::new` of src/lib.rs.  The `assert!` that at least
one of `rt`/`time` is supplied becomes the `none` result.  When `time` is
absent it is `-(ln (rt / r0)) * decay_years`; when `rt` is absent it is
`r0 * exp (-time / decay_years)`; a supplied value is stored as given.
`decay_constant = ln 2 / decay_years` always. -/
noncomputable def GrowthOrDecayRatios.new (rt : Option ℝ) (r0 : ℝ)
    (decay_years : ℝ) (time : Option ℝ) : Option GrowthOrDecayRatios :=
  match rt, time with
  | none, none => none
  | some rtv, none =>
      some { rt := rtv
             r0 := r0
             decay_constant := Real.log 2 / decay_years
             time := -Real.log (rtv / r0) * decay_years
             decay_years := decay_years }
  | none, some t =>
      some { rt := r0 * Real.exp (-t / decay_years)
             r0 := r0
             decay_constant := Real.log 2 / decay_years
             time := t
             decay_years := decay_years }
  | some rtv, some t =>
      some { rt := rtv
             r0 := r0
             decay_constant := Real.log 2 / decay_years
             time := t
             decay_years := decay_years }

/-- C3: when `rate` is absent and `final_value` is supplied,
`ExponentialChange::new` stores `principal`, `final_value` and `time` as
given and derives `rate = ln(final_value/principal)/time` in the decay
branch (`final_value < principal`), and
`rate = (final_value/principal)^(1/time) - 1` otherwise. -/
theorem C3_rate_derivation (p fv t : ℝ) :
    ExponentialChange.new p (some fv) none t =
      some { principal := p
             final_value := fv
             rate := if fv < p then Real.log (fv / p) / t
                     else (fv / p) ^ (1 / t) - 1
             time := t } := by
  unfold ExponentialChange.new
  refine congrArg some ?_
  refine congrArg (fun r => ExponentialChange.mk p fv r t) ?_
  split
  · rw [neg_div, neg_neg]
  · rfl

/-- C5: `ExponentialChange::new` fails (panics, modelled as `none`) iff both
`final_value` and `rate` are absent, and `GrowthOrDecayRatios::new` fails iff
both `rt` and `time` are absent; in every other case each constructor returns
`some` fully populated record. -/
theorem C5_invalid_input_iff (p t r0 dy : ℝ) (fv r rt tm : Option ℝ) :
    (ExponentialChange.new p fv r t = none ↔ fv = none ∧ r = none) ∧
    (GrowthOrDecayRatios.new rt r0 dy tm = none ↔ rt = none ∧ tm = none) := by
  constructor
  · cases fv <;> cases r <;> simp [ExponentialChange.new]
  · cases rt <;> cases tm <;> simp [GrowthOrDecayRatios.new]

/-- C6: `modify_final_value` stores the new final value and recomputes
`time` as the absolute value of `ln(final_value/principal)/rate`, so the
stored time is never negative. -/
theorem C6_modify_final_value (e : ExponentialChange) (nfv : ℝ) :
    (e.modify_final_value nfv).final_value = nfv ∧
    (e.modify_final_value nfv).time = |Real.log (nfv / e.principal) / e.rate| ∧
    0 ≤ (e.modify_final_value nfv).time :=
  ⟨rfl, rfl, abs_nonneg _⟩

/-- C9: `modify_final_value` leaves `rate` and `principal` unchanged. -/
theorem C9_modify_final_value_frame (e : ExponentialChange) (nfv : ℝ) :
    (e.modify_final_value nfv).rate = e.rate ∧
    (e.modify_final_value nfv).principal = e.principal :=
  ⟨rfl, rfl⟩

/-- C10: `modify_final_time` stores `new_time` exactly as given (negative
values included, no clamp) and leaves `principal` and `rate` unchanged. -/
theorem C10_modify_final_time_frame (e : ExponentialChange) (nt : ℝ) :
    (e.modify_final_time nt).time = nt ∧
    (e.modify_final_time nt).principal = e.principal ∧
    (e.modify_final_time nt).rate = e.rate :=
  ⟨rfl, rfl, rfl⟩

/-- C4: `modify_final_time` recomputes `final_value` as
`principal * exp(rate * new_time)` when the current rate is negative, and as
`principal * (1 + rate)^new_time` otherwise — two distinct formula branches
selected solely by the sign of `rate`. -/
theorem C4_modify_final_time_branches (e : ExponentialChange) (nt : ℝ) :
    (e.rate < 0 →
      (e.modify_final_time nt).final_value =
        e.principal * Real.exp (e.rate * nt)) ∧
    (¬ e.rate < 0 →
      (e.modify_final_time nt).final_value =
        e.principal * (1 + e.rate) ^ nt) := by
  constructor
  · intro h
    simp only [ExponentialChange.modify_final_time, if_pos h]
  · intro h
    simp only [ExponentialChange.modify_final_time, if_neg h]

/-- Witness for C4 at the concrete record (1, 2, 1, 1) and new time 3:
the nonnegative-rate branch applies. -/
theorem C4_modify_final_time_branches_witness :
    ((ExponentialChange.mk 1 2 1 1).modify_final_time 3).final_value =
      (1 : ℝ) * (1 + 1) ^ (3 : ℝ) :=
  (C4_modify_final_time_branches (ExponentialChange.mk 1 2 1 1) 3).2 (by norm_num)

/-- C1 counterexample: when the caller supplies both `rt` and `time`,
`GrowthOrDecayRatios::new` stores both as given, and the invariant
`rt = r0 * exp(-time/decay_years)` fails: with `rt = 5`, `r0 = 1`,
`decay_years = 1`, `time = 1` the stored `rt` is `5` but
`r0 * exp(-time/decay_years) = exp(-1) < 1`. -/
theorem C1_counterexample :
    GrowthOrDecayRatios.new (some 5) 1 1 (some 1) =
      some { rt := 5, r0 := 1, decay_constant := Real.log 2 / 1
             time := 1, decay_years := 1 } ∧
    (5 : ℝ) ≠ 1 * Real.exp (-1 / 1) := by
  refine ⟨rfl, ?_⟩
  have h1 : Real.exp ((-1 : ℝ) / 1) < 1 := by
    rw [Real.exp_lt_one_iff]; norm_num
  intro h
  rw [one_mul] at h
  linarith [h1]

/-- C1 (amended): for every successfully constructed `GrowthOrDecayRatios`
where at most one of `rt`/`time` was supplied — and, when `rt` was supplied,
`0 < rt / r0` and `decay_years ≠ 0` — the stored fields satisfy
`rt = r0 * exp(-time / decay_years)`. -/
theorem C1_ratio_invariant (rtIn : Option ℝ) (r0 dy : ℝ) (tIn : Option ℝ)
    (g : GrowthOrDecayRatios)
    (hg : GrowthOrDecayRatios.new rtIn r0 dy tIn = some g)
    (hone : rtIn = none ∨ tIn = none)
    (hdom : ∀ rtv, rtIn = some rtv → 0 < rtv / r0 ∧ dy ≠ 0) :
    g.rt = g.r0 * Real.exp (-g.time / g.decay_years) := by
  cases rtIn with
  | none =>
    cases tIn with
    | none => simp [GrowthOrDecayRatios.new] at hg
    | some t =>
      simp only [GrowthOrDecayRatios.new, Option.some.injEq] at hg
      subst hg
      rfl
  | some rtv =>
    cases tIn with
    | some t =>
      rcases hone with h | h <;> exact absurd h (by simp)
    | none =>
      obtain ⟨hpos, hdy⟩ := hdom rtv rfl
      simp only [GrowthOrDecayRatios.new, Option.some.injEq] at hg
      subst hg
      show rtv = r0 * Real.exp (-(-Real.log (rtv / r0) * dy) / dy)
      have harg : -(-Real.log (rtv / r0) * dy) / dy = Real.log (rtv / r0) := by
        rw [div_eq_iff hdy]; ring
      rw [harg, Real.exp_log hpos]
      have hr0 : r0 ≠ 0 := by
        intro h0
        rw [h0, div_zero] at hpos
        exact lt_irrefl 0 hpos
      rw [mul_comm, div_mul_cancel₀ _ hr0]

/-- Witness for C1 (amended): constructing with `time = 0` supplied and `rt`
derived, for `r0 = 1`, `decay_years = 1`. -/
theorem C1_ratio_invariant_witness :
    (1 : ℝ) * Real.exp (-(0 : ℝ) / 1) = 1 * Real.exp (-(0 : ℝ) / 1) :=
  C1_ratio_invariant none 1 1 (some 0)
    { rt := 1 * Real.exp (-(0 : ℝ) / 1), r0 := 1
      decay_constant := Real.log 2 / 1, time := 0, decay_years := 1 }
    rfl (Or.inl rfl) (fun rtv h => by cases h)

/-- C2 counterexample: the invariant `final_value = principal * (1+rate)^time`
fails for `rate ≥ 0` instances.  (a) Immediately after a construction that
supplies both `final_value` and `rate` (`new 1 (some 5) (some 0) 1` stores
`final_value = 5` with `rate = 0`, but `1 * (1+0)^1 = 1`).  (b) After
`modify_final_value`: starting from `new 1 none (some 1) 1`
(the record `(1, 2, 1, 1)`), `modify_final_value 8` sets
`time = |ln(8/1)/1| = 3 ln 2`, and `1 * (1+1)^(3 ln 2) ≠ 8`. -/
theorem C2_counterexample :
    (ExponentialChange.new 1 (some 5) (some 0) 1 =
        some { principal := 1, final_value := 5, rate := 0, time := 1 } ∧
      (0 : ℝ) ≤ 0 ∧
      (5 : ℝ) ≠ 1 * (1 + 0) ^ (1 : ℝ)) ∧
    (ExponentialChange.new 1 none (some 1) 1 =
        some (ExponentialChange.mk 1 2 1 1) ∧
      ((ExponentialChange.mk 1 2 1 1).modify_final_value 8).final_value = 8 ∧
      ((ExponentialChange.mk 1 2 1 1).modify_final_value 8).time =
        |Real.log ((8 : ℝ) / 1) / 1| ∧
      (8 : ℝ) ≠ 1 * (1 + 1) ^ |Real.log ((8 : ℝ) / 1) / 1|) := by
  refine ⟨⟨rfl, le_refl 0, ?_⟩, ⟨?_, rfl, rfl, ?_⟩⟩
  · rw [Real.rpow_one]; norm_num
  · norm_num [ExponentialChange.new, Real.rpow_one]
  · have hlog2 : (0 : ℝ) < Real.log 2 := Real.log_pos (by norm_num)
    have h8 : Real.log ((8 : ℝ) / 1) = 3 * Real.log 2 := by
      rw [div_one, show (8 : ℝ) = 2 ^ (3 : ℕ) by norm_num, Real.log_pow]
      push_cast; ring
    rw [h8, div_one, abs_of_pos (by positivity), one_mul,
      show ((1 : ℝ) + 1) = 2 by norm_num,
      Real.rpow_def_of_pos (by norm_num : (0 : ℝ) < 2)]
    have h8e : (8 : ℝ) = Real.exp (3 * Real.log 2) := by
      rw [← Real.exp_log (by norm_num : (0 : ℝ) < 8)]
      congr 1
      rw [show (8 : ℝ) = 2 ^ (3 : ℕ) by norm_num, Real.log_pow]
      push_cast; ring
    rw [h8e]
    intro h
    rw [Real.exp_eq_exp] at h
    nlinarith [Real.log_two_gt_d9, Real.log_two_lt_d9]

/-- C2 (amended): for `rate ≥ 0` instances the invariant
`final_value = principal * (1+rate)^time` holds immediately after a
construction that supplied at most one of `final_value`/`rate` — exactly,
when `final_value` was absent, and, when `rate` was derived, provided
`0 < principal ≤ final_value` and `time ≠ 0` — and it is preserved by every
call to `modify_final_time`.  It need not hold when both `final_value` and
`rate` were supplied, nor after `modify_final_value` (see the
counterexample). -/
theorem C2_invariant :
    (∀ (p r t : ℝ) (e : ExponentialChange),
        ExponentialChange.new p none (some r) t = some e →
        e.final_value = e.principal * (1 + e.rate) ^ e.time) ∧
    (∀ (p fv t : ℝ) (e : ExponentialChange),
        ExponentialChange.new p (some fv) none t = some e →
        0 < p → p ≤ fv → t ≠ 0 →
        e.final_value = e.principal * (1 + e.rate) ^ e.time) ∧
    (∀ (e : ExponentialChange) (nt : ℝ), 0 ≤ e.rate →
        (e.modify_final_time nt).final_value =
          (e.modify_final_time nt).principal *
            (1 + (e.modify_final_time nt).rate) ^ (e.modify_final_time nt).time) := by
  refine ⟨?_, ?_, ?_⟩
  · intro p r t e he
    simp only [ExponentialChange.new, Option.some.injEq] at he
    subst he
    rfl
  · intro p fv t e he hp hpfv ht
    have hb : ExponentialChange.new p (some fv) none t =
        some ⟨p, fv, (fv / p) ^ (1 / t) - 1, t⟩ := by
      show some (ExponentialChange.mk p fv
          (if fv < p then -(-Real.log (fv / p) / t) else (fv / p) ^ (1 / t) - 1) t) =
        some ⟨p, fv, (fv / p) ^ (1 / t) - 1, t⟩
      rw [if_neg (not_lt.mpr hpfv)]
    rw [hb, Option.some.injEq] at he
    subst he
    show fv = p * (1 + ((fv / p) ^ (1 / t) - 1)) ^ t
    have hfvpos : 0 < fv / p := div_pos (lt_of_lt_of_le hp hpfv) hp
    rw [show (1 : ℝ) + ((fv / p) ^ (1 / t) - 1) = (fv / p) ^ (1 / t) by ring,
      ← Real.rpow_mul hfvpos.le, one_div_mul_cancel ht, Real.rpow_one,
      mul_comm, div_mul_cancel₀ _ hp.ne.symm]
  · intro e nt h
    simp only [ExponentialChange.modify_final_time, if_neg (not_lt.mpr h)]

/-- Witness for C2 (amended), instantiating the three conjuncts at
`new 1 none (some 1) 1`, `new 1 (some 1) none 1` and
`(1, 2, 1, 1).modify_final_time 4`. -/
theorem C2_invariant_witness :
    ((1 : ℝ) * (1 + 1) ^ (1 : ℝ) = 1 * (1 + 1) ^ (1 : ℝ)) ∧
    ((1 : ℝ) = 1 * (1 + (((1 : ℝ) / 1) ^ ((1 : ℝ) / 1) - 1)) ^ (1 : ℝ)) ∧
    (((ExponentialChange.mk 1 2 1 1).modify_final_time 4).final_value =
      ((ExponentialChange.mk 1 2 1 1).modify_final_time 4).principal *
        (1 + ((ExponentialChange.mk 1 2 1 1).modify_final_time 4).rate) ^
          ((ExponentialChange.mk 1 2 1 1).modify_final_time 4).time) :=
  ⟨C2_invariant.1 1 1 1 ⟨1, 1 * (1 + 1) ^ (1 : ℝ), 1, 1⟩ rfl,
   C2_invariant.2.1 1 1 1 ⟨1, 1, ((1 : ℝ) / 1) ^ ((1 : ℝ) / 1) - 1, 1⟩
     (by show some (ExponentialChange.mk 1 1
              (if (1 : ℝ) < 1 then -(-Real.log ((1 : ℝ) / 1) / 1)
               else ((1 : ℝ) / 1) ^ ((1 : ℝ) / 1) - 1) 1) =
            some ⟨1, 1, ((1 : ℝ) / 1) ^ ((1 : ℝ) / 1) - 1, 1⟩
         rw [if_neg (by norm_num : ¬ (1 : ℝ) < 1)])
     (by norm_num) (by norm_num) (by norm_num),
   C2_invariant.2.2 (ExponentialChange.mk 1 2 1 1) 4
     (by norm_num [ExponentialChange.rate])⟩

/-- C7 counterexample: the rate round-trip fails for a negative rate.  With
`principal = 1`, `rate = -1/2`, `time = 1` (so `0 < principal`, `time ≥ 0`),
the derived `final_value` is `1 * (1 + -1/2)^1 = 1/2 < principal`, so the
second construction takes the decay branch and re-derives
`rate = ln(1/2) = -ln 2 ≈ -0.693`, not `-1/2`: the gap exceeds `1/10`,
beyond any floating tolerance. -/
theorem C7_counterexample :
    (ExponentialChange.new 1 none (some (-(1 / 2))) 1).map
        ExponentialChange.final_value =
      some ((1 : ℝ) * (1 + -(1 / 2)) ^ (1 : ℝ)) ∧
    (1 : ℝ) * (1 + -(1 / 2)) ^ (1 : ℝ) = 1 / 2 ∧
    (ExponentialChange.new 1 (some (1 / 2)) none 1).map ExponentialChange.rate =
      some (-Real.log 2) ∧
    (1 / 10 : ℝ) < |(-Real.log 2) - (-(1 / 2))| := by
  refine ⟨rfl, ?_, ?_, ?_⟩
  · rw [Real.rpow_one]; norm_num
  · show some (ExponentialChange.mk 1 (1 / 2)
        (if (1 / 2 : ℝ) < 1 then -(-Real.log ((1 / 2 : ℝ) / 1) / 1)
         else ((1 / 2 : ℝ) / 1) ^ ((1 : ℝ) / 1) - 1) 1).rate = some (-Real.log 2)
    rw [if_pos (by norm_num : (1 / 2 : ℝ) < 1)]
    have : ((1 / 2 : ℝ) / 1) = 2⁻¹ := by norm_num
    rw [this, Real.log_inv]
    norm_num
  · rw [show (-Real.log 2) - (-(1 / 2)) = 1 / 2 - Real.log 2 by ring,
      abs_of_neg (by linarith [Real.log_two_gt_d9])]
    linarith [Real.log_two_gt_d9]

/-- C7 (amended): the round trip holds for `0 < principal`, `rate ≥ 0` and
`time > 0`: constructing with `rate` supplied derives
`final_value = principal * (1+rate)^time`, and constructing again from that
`final_value` with `rate` absent re-derives exactly the original rate.  For
negative rates the decay branch re-derives `ln(final_value/principal)/time`
instead, which differs from the original rate (see the counterexample). -/
theorem C7_roundtrip (p r t : ℝ) (hp : 0 < p) (hr : 0 ≤ r) (ht : 0 < t) :
    (ExponentialChange.new p none (some r) t).map ExponentialChange.final_value =
      some (p * (1 + r) ^ t) ∧
    (ExponentialChange.new p (some (p * (1 + r) ^ t)) none t).map
        ExponentialChange.rate = some r := by
  constructor
  · rfl
  · have h1r : (1 : ℝ) ≤ 1 + r := by linarith
    have hge : p ≤ p * (1 + r) ^ t := by
      have h1 : (1 : ℝ) ≤ (1 + r) ^ t := Real.one_le_rpow h1r ht.le
      nlinarith
    show some (ExponentialChange.mk p (p * (1 + r) ^ t)
        (if p * (1 + r) ^ t < p then -(-Real.log (p * (1 + r) ^ t / p) / t)
         else (p * (1 + r) ^ t / p) ^ (1 / t) - 1) t).rate = some r
    rw [if_neg (not_lt.mpr hge)]
    have hdiv : p * (1 + r) ^ t / p = (1 + r) ^ t := by
      rw [mul_comm, mul_div_assoc, div_self hp.ne.symm, mul_one]
    rw [hdiv, ← Real.rpow_mul (by linarith : (0 : ℝ) ≤ 1 + r),
      mul_one_div_cancel ht.ne.symm, Real.rpow_one]
    norm_num

/-- Witness for C7 (amended) at `principal = 1`, `rate = 1`, `time = 1`. -/
theorem C7_roundtrip_witness :
    (ExponentialChange.new 1 none (some 1) 1).map ExponentialChange.final_value =
      some ((1 : ℝ) * (1 + 1) ^ (1 : ℝ)) ∧
    (ExponentialChange.new 1 (some ((1 : ℝ) * (1 + 1) ^ (1 : ℝ))) none 1).map
        ExponentialChange.rate = some 1 :=
  ⟨(C7_roundtrip 1 1 1 (by norm_num) (by norm_num) (by norm_num)).1,
   (C7_roundtrip 1 1 1 (by norm_num) (by norm_num) (by norm_num)).2⟩

/-- C8 counterexample: the `modify_final_time` / `modify_final_value` round
trip is NOT consistent with `t` for positive rates either (the claim excepts
only the `rate < 0` clamp case).  Starting from the record `(1, 2, 1, 1)`
(rate `1`, not negative), `modify_final_time 1` then `modify_final_value` of
the resulting final value stores `time = ln 2 ≈ 0.693`, not `1`: the gap
exceeds `1/4`, beyond any floating tolerance. -/
theorem C8_counterexample :
    ¬ ((ExponentialChange.mk 1 2 1 1).rate < 0) ∧
    (((ExponentialChange.mk 1 2 1 1).modify_final_time 1).modify_final_value
        (((ExponentialChange.mk 1 2 1 1).modify_final_time 1).final_value)).time =
      Real.log 2 ∧
    (1 / 4 : ℝ) < |Real.log 2 - 1| := by
  refine ⟨by norm_num, ?_, ?_⟩
  · have hfv : ((ExponentialChange.mk 1 2 1 1).modify_final_time 1).final_value =
        2 := by
      show (if (1 : ℝ) < 0 then (1 : ℝ) * Real.exp (1 * 1)
            else (1 : ℝ) * (1 + 1) ^ (1 : ℝ)) = 2
      rw [if_neg (by norm_num : ¬ (1 : ℝ) < 0), Real.rpow_one]
      norm_num
    show |Real.log
        (((ExponentialChange.mk 1 2 1 1).modify_final_time 1).final_value / 1) / 1| =
      Real.log 2
    rw [hfv]
    rw [show ((2 : ℝ) / 1) = 2 by norm_num, div_one,
      abs_of_pos (Real.log_pos (by norm_num))]
  · rw [abs_of_neg (by linarith [Real.log_two_lt_d9])]
    linarith [Real.log_two_lt_d9]

/-- C8 (amended): for every `ExponentialChange` with `rate < 0` and
`principal ≠ 0`, calling `modify_final_time t` and then `modify_final_value`
with the resulting final value stores `time = |t|`: the round trip restores
`t` exactly when `t ≥ 0`, and the absolute-value clamp masks the sign when
`t < 0` (yielding `-t`).  For `rate ≥ 0` the round trip is not consistent
with `t` in general (see the counterexample). -/
theorem C8_roundtrip_neg_rate (e : ExponentialChange) (t : ℝ)
    (hr : e.rate < 0) (hp : e.principal ≠ 0) :
    ((e.modify_final_time t).modify_final_value
        ((e.modify_final_time t).final_value)).time = |t| := by
  simp only [ExponentialChange.modify_final_value,
    ExponentialChange.modify_final_time, if_pos hr]
  rw [mul_div_cancel_left₀ _ hp, Real.log_exp, mul_div_cancel_left₀ _ (ne_of_lt hr)]

/-- Witness for C8 (amended) at the record `(1, 1, -1, 1)` and `t = 2`. -/
theorem C8_roundtrip_neg_rate_witness :
    ((-1 : ℝ) < 0) ∧ ((1 : ℝ) ≠ 0) ∧
    (((ExponentialChange.mk 1 1 (-1) 1).modify_final_time 2).modify_final_value
        (((ExponentialChange.mk 1 1 (-1) 1).modify_final_time 2).final_value)).time =
      |(2 : ℝ)| :=
  ⟨by norm_num, by norm_num,
    C8_roundtrip_neg_rate (ExponentialChange.mk 1 1 (-1) 1) 2
      (by norm_num [ExponentialChange.rate]) (by norm_num [ExponentialChange.principal])⟩
